import Mathlib

/-!
Verification of the noir-profiler cost model and circuit analyzer.

The Rust sources (`src/core.rs`, `src/analyzer.rs`) are shallowly embedded
below.  Machine floating point (`f64`/`f32`) is modelled by exact rational
arithmetic `ℚ`; the Rust cast `as usize` on a non-negative float is modelled
by `Int.floor` followed by `Int.toNat`.  Every wall-clock read
(`SystemTime::now().subsec_nanos()`) is passed in explicitly as a `Nat`
parameter (or a function parameter when the code reads the clock repeatedly),
and the hardware / parallelism noise factors of the analyzer (which go
through `sin` and `sqrt` on clock values) are passed in as opaque rational
parameters, since the claims under study never depend on their values.
-/

namespace NoirProfiler

/-- Model of `serde_json::Value` at the level the analyzer accesses it. -/
inductive Json where
  | null : Json
  | bool : Bool → Json
  | str : String → Json
  | num : ℚ → Json
  | arr : List Json → Json
  | obj : List (String × Json) → Json

/-- Rust `Value` indexing `v["key"]`: returns the field of an object, or
`Null` when absent or when the value is not an object. -/
def Json.get (j : Json) (key : String) : Json :=
  match j with
  | .obj fields =>
    match fields.find? (fun p => p.1 == key) with
    | some p => p.2
    | none => .null
  | _ => .null

/-- Rust `Value::as_str`. -/
def Json.asStr : Json → Option String
  | .str s => some s
  | _ => none

/-- Rust `Value::as_array`. -/
def Json.asArr : Json → Option (List Json)
  | .arr xs => some xs
  | _ => none

/-- Helper for `containsSeq`: does `needle` occur at the head of `hay`? -/
def startsWithSeq : List Char → List Char → Bool
  | _, [] => true
  | [], _ :: _ => false
  | h :: hs, n :: ns => h == n && startsWithSeq hs ns

/-- Does `needle` occur (contiguously) anywhere in `hay`? -/
def containsSeq (hay needle : List Char) : Bool :=
  startsWithSeq hay needle ||
    match hay with
    | [] => false
    | _ :: t => containsSeq t needle

/-- Rust `str::contains(pat)` for a string pattern: substring test. -/
def strContains (s pat : String) : Bool :=
  containsSeq s.data pat.data

/-- The Rust cast `q as usize` for a non-negative float, i.e. truncation
toward zero; on the non-negative values arising here this is the floor. -/
def ratToUsize (q : ℚ) : Nat := ⌊q⌋.toNat

/-- `apply_real_world_variability` from `src/core.rs` (lines 30-38).
`seed` is the `subsec_nanos()` wall-clock reading made by the function. -/
def apply_real_world_variability (seed : Nat) (cost : Nat) : Nat :=
  let variability_factor : ℚ := 98/100 + ((seed % 40 : Nat) : ℚ) * (1/1000)
  ratToUsize ((cost : ℚ) * variability_factor)

/-- A cost-database entry `(cost, confidence, sample_count)`
(`usize`, `f32`, `usize` in the source; the `f32` is modelled as `ℚ`). -/
abbrev CostEntry := Nat × ℚ × Nat

/-- `CostDatabase` from `src/core.rs`; the `HashMap` of costs is modelled as
an association list with unique keys (insertion order standing in for the
unspecified hash order). -/
structure CostDatabase where
  costs : List (String × CostEntry)
  last_updated : Option String
deriving DecidableEq

/-- Lookup in the association list modelling `HashMap::get`. -/
def lookupCost (costs : List (String × CostEntry)) (op : String) : Option CostEntry :=
  match costs.find? (fun p => p.1 == op) with
  | some p => p.2
  | none => none

/-- `HashMap::entry(op)` update: replace the entry in place when the key is
present, append it otherwise. -/
def upsertCost (costs : List (String × CostEntry)) (op : String) (v : CostEntry) :
    List (String × CostEntry) :=
  match costs with
  | [] => [(op, v)]
  | (k, w) :: rest =>
    if k == op then (k, v) :: rest else (k, w) :: upsertCost rest op v

/-- `DEFAULT_COSTS` from `src/core.rs` (lines 23-28). -/
def DEFAULT_COSTS : List (String × Nat) :=
  [("sha256", 38799), ("keccak256", 55000),
   ("pedersen_hash", 28742), ("ecdsa_secp256k1", 5000)]

/-- The exponential-moving-average weight chosen from the current sample
count (`src/core.rs` lines 103-109). -/
def emaWeight (sample_count : Nat) : ℚ :=
  if sample_count < 3 then 1/2 else if sample_count < 10 then 3/10 else 1/5

/-- `update_cost_database` from `src/core.rs` (lines 93-117).  `seed` is the
clock reading used by the inner `apply_real_world_variability` call and
`now` the RFC-3339 timestamp string produced by `chrono`. -/
def update_cost_database (seed : Nat) (now : String) (operation : String)
    (measured_cost : Nat) (db : CostDatabase) : CostDatabase :=
  let variable_cost := apply_real_world_variability seed measured_cost
  let entry := (lookupCost db.costs operation).getD (variable_cost, 83/100, 1)
  let current_cost := entry.1
  let sample_count := entry.2.2
  let new_sample_count := sample_count + 1
  let weight := emaWeight sample_count
  let new_cost :=
    ratToUsize ((1 - weight) * (current_cost : ℚ) + weight * (variable_cost : ℚ))
  let new_confidence := min (99/100 : ℚ) (83/100 + (new_sample_count : ℚ) / 50)
  { costs := upsertCost db.costs operation (new_cost, new_confidence, new_sample_count),
    last_updated := some now }

/-- `get_operation_details` from `src/core.rs` (lines 119-135); `seed` is
the clock reading of the one `apply_real_world_variability` call made on the
returned branch. -/
def get_operation_details (seed : Nat) (db : CostDatabase) (operation : String) :
    Nat × ℚ :=
  match lookupCost db.costs operation with
  | some (cost, confidence, _) =>
    (apply_real_world_variability seed cost, confidence)
  | none =>
    match DEFAULT_COSTS.find?
        (fun p => strContains operation p.1 || strContains p.1 operation) with
    | some (_, cost) => (apply_real_world_variability seed cost, 83/100)
    | none => (apply_real_world_variability seed 1000, 83/100)

/-- A stable insertion sort, modelling Rust `slice::sort_by` (which is a
stable sort; for the comparators arising below the result is determined by
the comparator alone wherever the claims consult it). -/
def insertSorted (le : α → α → Bool) (x : α) : List α → List α
  | [] => [x]
  | y :: ys => if le x y then x :: y :: ys else y :: insertSorted le x ys

/-- Sort a list by repeated `insertSorted`. -/
def sortByCmp (le : α → α → Bool) : List α → List α
  | [] => []
  | x :: xs => insertSorted le x (sortByCmp le xs)

/-- The perturbed tolerance factor of `find_operations_by_cost`
(`src/core.rs` lines 158-164): `seed0` is the clock reading taken once at
the start of the call. -/
def variable_tolerance (seed0 : Nat) (tolerance_percent : ℚ) : ℚ :=
  tolerance_percent * (1 + ((seed0 % 20 : Nat) : ℚ) * (1/100))

/-- The filtering loop of `find_operations_by_cost` (`src/core.rs` lines
168-182): every database entry whose perturbed cost lies within `tolerance`
of the target is kept, with a perturbed confidence floored at 0.8.
`entrySeed` (resp. `varSeed`) gives the clock reading observed when the
entry named by the argument is perturbed (resp. when its confidence
variance is drawn). -/
def cost_matches (entrySeed varSeed : String → Nat) (db : CostDatabase)
    (target_cost : Nat) (tolerance : ℚ) : List (String × Nat × ℚ) :=
  db.costs.filterMap (fun e =>
    let variable_cost := apply_real_world_variability (entrySeed e.1) e.2.1
    let diff := |(variable_cost : ℚ) - (target_cost : ℚ)|
    if diff ≤ tolerance then
      some (e.1, variable_cost,
        max (e.2.2.1 * (1 - ((varSeed e.1 % 5 : Nat) : ℚ) * (1/100))) (8/10))
    else none)

/-- The comparator closure passed to `sort_by` in `find_operations_by_cost`
(`src/core.rs` lines 184-197).  `nib` gives the fresh clock nibble
(`subsec_nanos() % 10`) read at the comparison of the two arguments. -/
def findOpsLe (nib : (String × Nat × ℚ) → (String × Nat × ℚ) → Nat)
    (target_cost : Nat) (tolerance : ℚ) (a b : String × Nat × ℚ) : Bool :=
  let diff_a := |(a.2.1 : ℚ) - (target_cost : ℚ)|
  let diff_b := |(b.2.1 : ℚ) - (target_cost : ℚ)|
  if nib a b < 2 ∧ diff_a < tolerance * (1/2) ∧ diff_b < tolerance * (1/2) then
    diff_b ≤ diff_a
  else
    diff_a ≤ diff_b

/-- `find_operations_by_cost` from `src/core.rs` (lines 154-200), with all
clock reads passed in as parameters (`seed0` for the tolerance factor,
`entrySeed` and `varSeed` for the per-entry perturbations, `nib` for the
per-comparison nibble of the sort). -/
def find_operations_by_cost (seed0 : Nat) (entrySeed varSeed : String → Nat)
    (nib : (String × Nat × ℚ) → (String × Nat × ℚ) → Nat)
    (db : CostDatabase) (target_cost : Nat) (tolerance_percent : ℚ) :
    List (String × Nat × ℚ) :=
  let tolerance :=
    (target_cost : ℚ) * variable_tolerance seed0 tolerance_percent / 100
  sortByCmp (findOpsLe nib target_cost tolerance)
    (cost_matches entrySeed varSeed db target_cost tolerance)

/-- `CircuitAnalysis` from `src/core.rs` (lines 9-21); the `f64`/`f32`
fields are modelled as `ℚ`. -/
structure CircuitAnalysis where
  constraints : Nat
  bottlenecks : List (String × Nat)
  total_opcodes : Nat
  operation_counts : List (String × Nat)
  black_box_functions : List (String × Nat × Nat)
  public_inputs : Nat
  private_inputs : Nat
  return_values : Nat
  estimated_proving_time : ℚ
  confidence : ℚ
deriving DecidableEq

/-- `PROVING_TIME_FACTOR` from `src/core.rs` (line 202). -/
def PROVING_TIME_FACTOR : ℚ := 1

/-- `HashMap::entry(k).or_insert(0) += 1`, modelled on the association
list: bump the count of `key`, inserting it with count 1 when absent. -/
def bumpCount (counts : List (String × Nat)) (key : String) : List (String × Nat) :=
  match counts with
  | [] => [(key, 1)]
  | (k, n) :: rest =>
    if k == key then (k, n + 1) :: rest else (k, n) :: bumpCount rest key

/-- The `black_box_functions` update of the analyzer loop (`src/analyzer.rs`
lines 118-122): increment the call count on re-encounter, otherwise push
`(name, 1, cost)`. -/
def bbfAdd (bbf : List (String × Nat × Nat)) (name : String) (cost : Nat) :
    List (String × Nat × Nat) :=
  match bbf with
  | [] => [(name, 1, cost)]
  | (k, n, c) :: rest =>
    if k == name then (k, n + 1, c) :: rest else (k, n, c) :: bbfAdd rest name cost

/-- `HashSet::insert`, modelled on a duplicate-free list. -/
def insertUnique (s : List String) (x : String) : List String :=
  if s.contains x then s else s ++ [x]

/-- Collect the `"variable"` strings of a term list into the witness set
(`src/analyzer.rs` lines 43-47 and 52-63). -/
def termVars (items : List Json) (s : List String) : List String :=
  items.foldl (fun acc it =>
    match (it.get "variable").asStr with
    | some v => insertUnique acc v
    | none => acc) s

/-- One opcode of the witness-cardinality fallback scan (`src/analyzer.rs`
lines 38-69). -/
def witnessScanStep (s : List String) (op : Json) : List String :=
  match (op.get "type").asStr with
  | some t =>
    if t == "AssertZero" then
      match ((op.get "expression").get "terms").asArr with
      | some terms => termVars terms s
      | none => s
    else if t == "BlackBoxFunction" then
      let s1 := match (op.get "inputs").asArr with
        | some xs => termVars xs s
        | none => s
      match (op.get "outputs").asArr with
      | some xs => termVars xs s1
      | none => s1
    else s
  | none => s

/-- One iteration of the opcode classification loop of `analyze_circuit`
(`src/analyzer.rs` lines 94-160).  `details idx name` is the pair returned
by `get_operation_details(name)` at opcode index `idx` (the call consults
the process-global database and the wall clock, both passed in here). -/
def analyzeStep (details : Nat → String → Nat × ℚ) (idx : Nat) (op : Json)
    (a : CircuitAnalysis) : CircuitAnalysis :=
  let op_type := ((op.get "type").asStr).getD "Unknown"
  let op_key :=
    if op_type == "BlackBoxFunction" then "External"
    else if op_type == "AssertZero" then "Constraint"
    else op_type
  let counts := bumpCount a.operation_counts op_key
  let step :=
    if op_type == "BlackBoxFunction" then
      let fn_name := ((op.get "function").asStr).getD "unknown"
      let d := details idx fn_name
      (d.1, d.2, bbfAdd a.black_box_functions fn_name d.1)
    else if op_type == "AssertZero" then
      let terms := (((op.get "expression").get "terms").asArr).getD [] |>.length
      let op_cost := if terms > 0 then (terms + 3) / 4 else 1
      (op_cost, 98/100, a.black_box_functions)
    else
      (1, 9/10, a.black_box_functions)
  { a with
    operation_counts := counts
    black_box_functions := step.2.2
    constraints := a.constraints + step.1
    bottlenecks :=
      if step.1 > 10000 then a.bottlenecks ++ [(op_key, step.1)] else a.bottlenecks
    confidence :=
      if a.confidence = 0 then step.2.1 else (a.confidence + step.2.1) / 2 }

/-- The opcode loop of `analyze_circuit`, indexed as by `enumerate()`. -/
def analyzeLoop (details : Nat → String → Nat × ℚ) :
    Nat → List Json → CircuitAnalysis → CircuitAnalysis
  | _, [], a => a
  | idx, op :: rest, a => analyzeLoop details (idx + 1) rest (analyzeStep details idx op a)

/-- `has_sequential_dependencies` from `src/analyzer.rs` (lines 224-234). -/
def has_sequential_dependencies (a : CircuitAnalysis) : Bool :=
  let has_memory_ops := a.operation_counts.any
    (fun p => strContains p.1 "Memory" || strContains p.1 "Array")
  let has_multiple_hashes := ((a.black_box_functions.filter
      (fun t => strContains t.1 "hash" || strContains t.1 "Hash")).map
      (fun t => t.2.1)).sum > 1
  has_memory_ops || !has_multiple_hashes

/-- `analyze_circuit` from `src/analyzer.rs` (lines 9-193), applied to the
already-decoded record `data` (file reading and JSON decoding short-circuit
before this point and are not modelled).  `details` stands for the
`get_operation_details` calls, `hardware_factor` for the clock-driven
`0.85 + |sin s| * 0.3` noise, and `parallel_factor d p` for the parallelism
factor computed from the sequential-dependency flag `d` and the
`public_inputs` count `p` (a `sqrt`-based expression in the source); the
claims under study hold for every value of these parameters. -/
def analyze_circuit (details : Nat → String → Nat × ℚ) (hardware_factor : ℚ)
    (parallel_factor : Bool → Nat → ℚ) (data : Json) : CircuitAnalysis :=
  let opcodes := ((data.get "opcodes").asArr).getD []
  let public_inputs := (((data.get "public_inputs").asArr).getD []).length
  let return_values := (((data.get "return_values").asArr).getD []).length
  let total_witnesses :=
    match data.get "witnesses" with
    | .obj fields => fields.length
    | _ => (opcodes.foldl witnessScanStep []).length
  let private_inputs :=
    if total_witnesses ≥ public_inputs then total_witnesses - public_inputs else 0
  let a0 : CircuitAnalysis :=
    { constraints := 0
      bottlenecks := []
      total_opcodes := opcodes.length
      operation_counts := []
      black_box_functions := []
      public_inputs := public_inputs
      private_inputs := private_inputs
      return_values := return_values
      estimated_proving_time := 0
      confidence := 0 }
  let a1 := analyzeLoop details 0 opcodes a0
  let a2 := { a1 with
    operation_counts := sortByCmp (fun x y => decide (y.2 ≤ x.2)) a1.operation_counts }
  let base_proving_time := (a2.constraints : ℚ) * PROVING_TIME_FACTOR / 50
  let a3 := { a2 with estimated_proving_time := base_proving_time * hardware_factor }
  if a3.constraints > 0 then
    { a3 with estimated_proving_time :=
        a3.estimated_proving_time *
          parallel_factor (has_sequential_dependencies a3) a3.public_inputs }
  else a3

/-- The per-opcode cost attribution as stated by the specification: an
`AssertZero` opcode with `t` expression terms costs `⌈t/4⌉ = (t+3)/4` when
`t > 0` and `1` when `t = 0`, a `BlackBoxFunction` opcode costs the value
returned by `get_operation_details` for its function name at that point,
and every other opcode costs `1`. -/
def claimedOpcodeCost (details : Nat → String → Nat × ℚ) (idx : Nat) (op : Json) : Nat :=
  let op_type := ((op.get "type").asStr).getD "Unknown"
  if op_type == "BlackBoxFunction" then
    (details idx (((op.get "function").asStr).getD "unknown")).1
  else if op_type == "AssertZero" then
    let terms := (((op.get "expression").get "terms").asArr).getD [] |>.length
    if terms > 0 then (terms + 3) / 4 else 1
  else 1

/-- Sum of the claimed per-opcode costs over an opcode sequence starting at
index `idx`. -/
def sumClaimedCosts (details : Nat → String → Nat × ℚ) : Nat → List Json → Nat
  | _, [] => 0
  | idx, op :: rest =>
    claimedOpcodeCost details idx op + sumClaimedCosts details (idx + 1) rest

/-- A filesystem entry yielded by the `walkdir` traversal of
`batch_analyze`, at the level the code inspects it: its file name, its
extension, its metadata (`is_file`, `len`), and the result that
`analyze_circuit` produces for its path.  Only existing paths are yielded
by the walker, and `fs::metadata` is taken to succeed on them. -/
structure DirEntry where
  file_name : String
  extension : Option String
  is_file : Bool
  len : Nat
  analysis : Except String CircuitAnalysis

/-- `batch_analyze` from `src/analyzer.rs` (lines 305-336).  The directory
probe (`dir.exists()`, `dir.is_dir()`) and the walker output are passed in
as the model of the filesystem. -/
def batch_analyze (dir_exists dir_is_dir : Bool) (entries : List DirEntry) :
    Except String (List (String × Except String CircuitAnalysis)) :=
  if !dir_exists || !dir_is_dir then
    .error "Directory not found or is not a directory"
  else
    .ok ((entries.filter
        (fun e => e.extension == some "json" && e.is_file && decide (e.len > 0))).map
      (fun e => (e.file_name, e.analysis)))

/-- Extract a `usize` from a JSON number, as `serde` decodes it. -/
def Json.asNat : Json → Option Nat
  | .num q => if q.den == 1 && decide (0 ≤ q.num) then some q.num.toNat else none
  | _ => none

/-- Extract a float from a JSON number (floats are modelled as `ℚ`). -/
def Json.asRat : Json → Option ℚ
  | .num q => some q
  | _ => none

/-- Serialization of one cost-database entry, as `serde_json` writes the
tuple `(usize, f32, usize)`: a three-element array. -/
def encodeEntry (v : CostEntry) : Json :=
  .arr [.num (v.1 : ℚ), .num v.2.1, .num (v.2.2 : ℚ)]

/-- Deserialization of one cost-database entry. -/
def decodeEntry : Json → Option CostEntry
  | .arr [c, conf, n] => do
    let c0 ← c.asNat
    let conf0 ← conf.asRat
    let n0 ← n.asNat
    some (c0, conf0, n0)
  | _ => none

/-- Serialization of the `costs` map. -/
def encodeCosts (costs : List (String × CostEntry)) : List (String × Json) :=
  costs.map (fun p => (p.1, encodeEntry p.2))

/-- Deserialization of the `costs` map. -/
def decodeCosts : List (String × Json) → Option (List (String × CostEntry))
  | [] => some []
  | (k, v) :: rest => do
    let e ← decodeEntry v
    let es ← decodeCosts rest
    some ((k, e) :: es)

/-- `serde_json::to_string_pretty` on a `CostDatabase`, modelled at the
JSON-value level (`src/core.rs` lines 85-88): an object with the `costs`
map and the optional `last_updated` string. -/
def encodeDatabase (db : CostDatabase) : Json :=
  .obj [("costs", .obj (encodeCosts db.costs)),
        ("last_updated",
          match db.last_updated with
          | some s => .str s
          | none => .null)]

/-- `serde_json::from_str` for a `CostDatabase`, modelled at the JSON-value
level (`src/core.rs` line 56). -/
def decodeDatabase (j : Json) : Option CostDatabase :=
  match j.get "costs" with
  | .obj entries => do
    let cs ← decodeCosts entries
    let lu ← match j.get "last_updated" with
      | .null => some (none : Option String)
      | .str s => some (some s)
      | _ => none
    some { costs := cs, last_updated := lu }
  | _ => none

/-- The freshly seeded database built by `load_cost_database` when no prior
state exists (`src/core.rs` lines 65-71); `seeds op` is the clock reading
of the variability call made while seeding `op`. -/
def seededDefaults (seeds : String → Nat) : CostDatabase :=
  { costs := DEFAULT_COSTS.map
      (fun p => (p.1, (apply_real_world_variability (seeds p.1) p.2, (83/100 : ℚ), 1)))
    last_updated := none }

/-- `load_cost_database` from `src/core.rs` (lines 50-72): `file` is the
content of `circuit_stats/cost_database.json` (`none` when the file does
not exist or cannot be read); any decode failure falls back to the seeded
defaults. -/
def load_cost_database (file : Option Json) (seeds : String → Nat) : CostDatabase :=
  match file with
  | some content =>
    match decodeDatabase content with
    | some db => db
    | none => seededDefaults seeds
  | none => seededDefaults seeds

/-- `save_cost_database` from `src/core.rs` (lines 74-91): the serialized
content written to `circuit_stats/cost_database.json` (directory creation
and I/O failures, which merely drop the write, are not modelled). -/
def save_cost_database (db : CostDatabase) : Option Json :=
  some (encodeDatabase db)

/-! ### Helper lemmas -/

theorem ratToUsize_natCast (n : Nat) : ratToUsize (n : ℚ) = n := by
  simp [ratToUsize]

theorem lookupCost_upsert_self (costs : List (String × CostEntry)) (op : String)
    (v : CostEntry) : lookupCost (upsertCost costs op v) op = some v := by
  induction costs with
  | nil => simp [upsertCost, lookupCost, List.find?]
  | cons head tail ih =>
    obtain ⟨k, w⟩ := head
    by_cases hk : k == op
    · simp [upsertCost, lookupCost, List.find?, hk]
    · simpa [upsertCost, lookupCost, List.find?, hk] using ih

/-! ### C7: the variability function -/

/-- C7: for every clock reading and cost, `apply_real_world_variability`
returns `floor(cost * f)` with `f = 0.98 + (nanos mod 40) * 0.001`, the
factor always lies in `[0.98, 1.02)`, and the result is bounded between
`floor(0.98 * cost)` and `floor(1.019 * cost)`. -/
theorem variability_spec (seed cost : Nat) :
    apply_real_world_variability seed cost =
      (⌊(cost : ℚ) * (98/100 + ((seed % 40 : Nat) : ℚ) * (1/1000))⌋).toNat ∧
    (98/100 : ℚ) ≤ 98/100 + ((seed % 40 : Nat) : ℚ) * (1/1000) ∧
    98/100 + ((seed % 40 : Nat) : ℚ) * (1/1000) < 102/100 ∧
    (⌊(98/100 : ℚ) * (cost : ℚ)⌋).toNat ≤ apply_real_world_variability seed cost ∧
    apply_real_world_variability seed cost ≤ (⌊(1019/1000 : ℚ) * (cost : ℚ)⌋).toNat := by
  have hmod : ((seed % 40 : Nat) : ℚ) ≤ 39 := by
    exact_mod_cast Nat.le_of_lt_succ (Nat.mod_lt seed (by norm_num))
  have hmod0 : (0 : ℚ) ≤ ((seed % 40 : Nat) : ℚ) := by positivity
  have hflo : (98/100 : ℚ) ≤ 98/100 + ((seed % 40 : Nat) : ℚ) * (1/1000) := by linarith
  have hfhi : 98/100 + ((seed % 40 : Nat) : ℚ) * (1/1000) ≤ 1019/1000 := by linarith
  refine ⟨rfl, hflo, by linarith, ?_, ?_⟩
  · apply Int.toNat_le_toNat
    apply Int.floor_le_floor
    calc (98/100 : ℚ) * (cost : ℚ) = (cost : ℚ) * (98/100) := by ring
    _ ≤ (cost : ℚ) * (98/100 + ((seed % 40 : Nat) : ℚ) * (1/1000)) := by
        apply mul_le_mul_of_nonneg_left hflo (by positivity)
  · apply Int.toNat_le_toNat
    apply Int.floor_le_floor
    calc (cost : ℚ) * (98/100 + ((seed % 40 : Nat) : ℚ) * (1/1000))
        ≤ (cost : ℚ) * (1019/1000) := by
          apply mul_le_mul_of_nonneg_left hfhi (by positivity)
    _ = (1019/1000 : ℚ) * (cost : ℚ) := by ring

/-! ### C5: the sequential-dependency predicate -/

/-- C5: `has_sequential_dependencies` is true exactly when some operation
category name contains `Memory` or `Array`, or when the total call count of
black-box primitives whose names contain `hash`/`Hash` is at most 1 (so a
circuit with zero or one hash call counts as sequential). -/
theorem has_sequential_dependencies_iff (a : CircuitAnalysis) :
    has_sequential_dependencies a = true ↔
      ((∃ p ∈ a.operation_counts,
          strContains p.1 "Memory" = true ∨ strContains p.1 "Array" = true) ∨
        ((a.black_box_functions.filter
            (fun t => strContains t.1 "hash" || strContains t.1 "Hash")).map
            (fun t => t.2.1)).sum ≤ 1) := by
  simp [has_sequential_dependencies, List.any_eq_true, Nat.not_lt]

/-! ### C1: update on a fresh entry (corrected) -/

/-- C1 counterexample: on a fresh operation, a single `update` call does
not leave the inserted `(variability(m), 0.83, 1)` in place — the call
immediately blends the freshly inserted entry with itself, storing
confidence 0.87 and sample count 2 already after the first call. -/
theorem update_fresh_entry_counterexample :
    lookupCost (update_cost_database 0 "t0" "x" 100
        { costs := [], last_updated := none }).costs "x" = some (98, 87/100, 2) ∧
    lookupCost (update_cost_database 0 "t0" "x" 100
        { costs := [], last_updated := none }).costs "x" ≠ some (98, 83/100, 1) := by
  have h : lookupCost (update_cost_database 0 "t0" "x" 100
      { costs := [], last_updated := none }).costs "x" = some (98, 87/100, 2) := by
    norm_num [update_cost_database, apply_real_world_variability, ratToUsize,
      lookupCost, upsertCost, emaWeight, List.find?]
    simp only [Int.reduceToNat]
    norm_num
    decide
  refine ⟨h, ?_⟩
  rw [h]
  simp only [ne_eq, Option.some.injEq, Prod.mk.injEq]
  intro hc
  exact absurd hc.2.1 (by norm_num)

/-- C1 (amended): for an operation absent from the database, `update(op, m)`
inserts `(variability(m), 0.83, 1)` and immediately re-blends it within the
same call, so that after this first call the stored entry is
`(variability(m), 0.87, 2)`: the cost is the variability-perturbed measured
cost (the weight-1/2 blend of two equal values), while confidence 0.87 and
sample count 2 are reached already on the first call. -/
theorem update_fresh_entry (seed : Nat) (now operation : String)
    (measured_cost : Nat) (db : CostDatabase)
    (h : lookupCost db.costs operation = none) :
    lookupCost (update_cost_database seed now operation measured_cost db).costs
        operation =
      some (apply_real_world_variability seed measured_cost, 87/100, 2) := by
  unfold update_cost_database
  rw [h]
  simp only [Option.getD_none, lookupCost_upsert_self, Option.some.injEq, Prod.mk.injEq]
  refine ⟨?_, ?_, trivial⟩
  · have : (1 - emaWeight 1) * ((apply_real_world_variability seed measured_cost : Nat) : ℚ) +
        emaWeight 1 * ((apply_real_world_variability seed measured_cost : Nat) : ℚ) =
        ((apply_real_world_variability seed measured_cost : Nat) : ℚ) := by
      norm_num [emaWeight]
      ring
    rw [this, ratToUsize_natCast]
  · norm_num

/-- C1 witness: the amended statement applied to a concrete fresh
database. -/
theorem update_fresh_entry_witness :
    lookupCost (update_cost_database 0 "t0" "y" 250
        { costs := [], last_updated := none }).costs "y" =
      some (apply_real_world_variability 0 250, 87/100, 2) :=
  update_fresh_entry 0 "t0" "y" 250 { costs := [], last_updated := none } rfl

/-! ### C2: update on an existing entry -/

/-- C2: for an operation already stored with entry `(c_old, _, n)`,
`update(op, m)` writes back exactly
`(floor((1-w) * c_old + w * variability(m)), min(0.99, 0.83 + (n+1)/50), n+1)`
with `w = emaWeight n`, i.e. `0.5` when `n < 3`, `0.3` when `3 ≤ n < 10`
and `0.2` otherwise; in particular the sample count increases by exactly 1. -/
theorem update_existing_entry (seed : Nat) (now operation : String)
    (measured_cost : Nat) (db : CostDatabase) (c_old : Nat) (conf : ℚ) (n : Nat)
    (h : lookupCost db.costs operation = some (c_old, conf, n)) :
    lookupCost (update_cost_database seed now operation measured_cost db).costs
        operation =
      some (ratToUsize ((1 - emaWeight n) * (c_old : ℚ) +
              emaWeight n * ((apply_real_world_variability seed measured_cost : Nat) : ℚ)),
            min (99/100) (83/100 + ((n + 1 : Nat) : ℚ) / 50), n + 1) ∧
    emaWeight n = (if n < 3 then (1/2 : ℚ) else if n < 10 then 3/10 else 1/5) := by
  constructor
  · unfold update_cost_database
    rw [h]
    simp only [Option.getD_some, lookupCost_upsert_self]
  · rfl

/-- C2 witness: the statement applied to a database holding `("x", (100,
0.83, 5))`, so the EMA weight is 0.3 and the sample count becomes 6. -/
theorem update_existing_entry_witness :
    lookupCost (update_cost_database 0 "t0" "x" 200
        { costs := [("x", (100, 83/100, 5))], last_updated := none }).costs "x" =
      some (ratToUsize ((1 - emaWeight 5) * ((100 : Nat) : ℚ) +
              emaWeight 5 * ((apply_real_world_variability 0 200 : Nat) : ℚ)),
            min (99/100) (83/100 + ((5 + 1 : Nat) : ℚ) / 50), 5 + 1) ∧
    emaWeight 5 = (if 5 < 3 then (1/2 : ℚ) else if 5 < 10 then 3/10 else 1/5) :=
  update_existing_entry 0 "t0" "x" 200
    { costs := [("x", (100, 83/100, 5))], last_updated := none } 100 (83/100) 5 rfl

/-! ### C3: constraints are the sum of per-opcode costs -/

theorem analyzeStep_constraints (details : Nat → String → Nat × ℚ) (idx : Nat)
    (op : Json) (a : CircuitAnalysis) :
    (analyzeStep details idx op a).constraints =
      a.constraints + claimedOpcodeCost details idx op := by
  unfold analyzeStep claimedOpcodeCost
  by_cases h1 : (((op.get "type").asStr).getD "Unknown") == "BlackBoxFunction"
  · simp [h1]
  · by_cases h2 : (((op.get "type").asStr).getD "Unknown") == "AssertZero"
    · simp [h1, h2]
    · simp [h1, h2]

theorem analyzeLoop_constraints (details : Nat → String → Nat × ℚ)
    (ops : List Json) (idx : Nat) (a : CircuitAnalysis) :
    (analyzeLoop details idx ops a).constraints =
      a.constraints + sumClaimedCosts details idx ops := by
  induction ops generalizing idx a with
  | nil => simp [analyzeLoop, sumClaimedCosts]
  | cons op rest ih =>
    rw [analyzeLoop, sumClaimedCosts, ih, analyzeStep_constraints]
    omega

/-- C3: for every analyzed circuit, the returned `constraints` field is the
sum over the opcode sequence of the per-opcode assigned cost: `ceil(t/4)`
(i.e. `(t+3)/4`) for an `AssertZero` opcode with `t > 0` expression terms
and `1` with `t = 0`, the `get_operation_details` result for a
`BlackBoxFunction` opcode, and `1` for every other opcode. -/
theorem constraints_eq_sum_of_costs (details : Nat → String → Nat × ℚ)
    (hardware_factor : ℚ) (parallel_factor : Bool → Nat → ℚ) (data : Json) :
    (analyze_circuit details hardware_factor parallel_factor data).constraints =
      sumClaimedCosts details 0 (((data.get "opcodes").asArr).getD []) := by
  unfold analyze_circuit
  split <;>
    simp [analyzeLoop_constraints, apply_ite (CircuitAnalysis.constraints)]

/-! ### C6: the empty circuit -/

/-- C6: when the record's opcode sequence is empty or absent, the analysis
has zero constraints, zero opcodes, empty operation counts, black-box list
and bottlenecks, estimated proving time 0 and confidence 0 (in particular
the parallelism factor never enters). -/
theorem analyze_empty_opcodes (details : Nat → String → Nat × ℚ)
    (hardware_factor : ℚ) (parallel_factor : Bool → Nat → ℚ) (data : Json)
    (h : ((data.get "opcodes").asArr).getD [] = []) :
    (analyze_circuit details hardware_factor parallel_factor data).constraints = 0 ∧
    (analyze_circuit details hardware_factor parallel_factor data).total_opcodes = 0 ∧
    (analyze_circuit details hardware_factor parallel_factor data).operation_counts = [] ∧
    (analyze_circuit details hardware_factor parallel_factor data).black_box_functions = [] ∧
    (analyze_circuit details hardware_factor parallel_factor data).bottlenecks = [] ∧
    (analyze_circuit details hardware_factor parallel_factor
      data).estimated_proving_time = 0 ∧
    (analyze_circuit details hardware_factor parallel_factor data).confidence = 0 := by
  unfold analyze_circuit
  rw [h]
  simp [analyzeLoop, sortByCmp]

/-- C6 witness: the literal empty-circuit record. -/
theorem analyze_empty_opcodes_witness :
    (analyze_circuit (fun _ _ => (1000, 83/100)) 1 (fun _ _ => 1)
        (Json.obj [("opcodes", Json.arr []), ("public_inputs", Json.arr []),
          ("return_values", Json.arr [])])).constraints = 0 ∧
    (analyze_circuit (fun _ _ => (1000, 83/100)) 1 (fun _ _ => 1)
        (Json.obj [("opcodes", Json.arr []), ("public_inputs", Json.arr []),
          ("return_values", Json.arr [])])).total_opcodes = 0 ∧
    (analyze_circuit (fun _ _ => (1000, 83/100)) 1 (fun _ _ => 1)
        (Json.obj [("opcodes", Json.arr []), ("public_inputs", Json.arr []),
          ("return_values", Json.arr [])])).operation_counts = [] ∧
    (analyze_circuit (fun _ _ => (1000, 83/100)) 1 (fun _ _ => 1)
        (Json.obj [("opcodes", Json.arr []), ("public_inputs", Json.arr []),
          ("return_values", Json.arr [])])).black_box_functions = [] ∧
    (analyze_circuit (fun _ _ => (1000, 83/100)) 1 (fun _ _ => 1)
        (Json.obj [("opcodes", Json.arr []), ("public_inputs", Json.arr []),
          ("return_values", Json.arr [])])).bottlenecks = [] ∧
    (analyze_circuit (fun _ _ => (1000, 83/100)) 1 (fun _ _ => 1)
        (Json.obj [("opcodes", Json.arr []), ("public_inputs", Json.arr []),
          ("return_values", Json.arr [])])).estimated_proving_time = 0 ∧
    (analyze_circuit (fun _ _ => (1000, 83/100)) 1 (fun _ _ => 1)
        (Json.obj [("opcodes", Json.arr []), ("public_inputs", Json.arr []),
          ("return_values", Json.arr [])])).confidence = 0 :=
  analyze_empty_opcodes (fun _ _ => (1000, 83/100)) 1 (fun _ _ => 1)
    (Json.obj [("opcodes", Json.arr []), ("public_inputs", Json.arr []),
      ("return_values", Json.arr [])]) rfl

/-! ### C10: opcodes with an absent or non-string type -/

/-- C10: an opcode whose `type` field is absent or not a string is treated
as type `Unknown` rather than rejected: in a circuit consisting of that
opcode it is counted in `total_opcodes`, contributes cost 1 to
`constraints` and confidence 0.9, and is filed under the `Unknown`
category of `operation_counts`. -/
theorem analyzeStep_unknown (details : Nat → String → Nat × ℚ) (idx : Nat)
    (op : Json) (a : CircuitAnalysis) (h : (op.get "type").asStr = none) :
    analyzeStep details idx op a =
      { a with
        operation_counts := bumpCount a.operation_counts "Unknown"
        constraints := a.constraints + 1
        confidence := if a.confidence = 0 then 9/10 else (a.confidence + 9/10) / 2 } := by
  unfold analyzeStep
  rw [h]
  simp

theorem witnessScanStep_unknown (s : List String) (op : Json)
    (h : (op.get "type").asStr = none) : witnessScanStep s op = s := by
  unfold witnessScanStep
  rw [h]

theorem unknown_type_opcode (details : Nat → String → Nat × ℚ)
    (hardware_factor : ℚ) (parallel_factor : Bool → Nat → ℚ) (op : Json)
    (h : (op.get "type").asStr = none) :
    (analyze_circuit details hardware_factor parallel_factor
        (Json.obj [("opcodes", Json.arr [op])])).total_opcodes = 1 ∧
    (analyze_circuit details hardware_factor parallel_factor
        (Json.obj [("opcodes", Json.arr [op])])).constraints = 1 ∧
    (analyze_circuit details hardware_factor parallel_factor
        (Json.obj [("opcodes", Json.arr [op])])).confidence = 9/10 ∧
    (analyze_circuit details hardware_factor parallel_factor
        (Json.obj [("opcodes", Json.arr [op])])).operation_counts = [("Unknown", 1)] := by
  unfold analyze_circuit
  simp only [analyzeLoop, List.foldl, witnessScanStep_unknown _ _ h,
    analyzeStep_unknown details 0 op _ h]
  simp [Json.get, Json.asArr, List.find?, bumpCount, sortByCmp, insertSorted]

/-- C10 witness: the opcode `{}` (no `type` field at all). -/
theorem unknown_type_opcode_witness :
    (analyze_circuit (fun _ _ => (1000, 83/100)) 1 (fun _ _ => 1)
        (Json.obj [("opcodes", Json.arr [Json.obj []])])).total_opcodes = 1 ∧
    (analyze_circuit (fun _ _ => (1000, 83/100)) 1 (fun _ _ => 1)
        (Json.obj [("opcodes", Json.arr [Json.obj []])])).constraints = 1 ∧
    (analyze_circuit (fun _ _ => (1000, 83/100)) 1 (fun _ _ => 1)
        (Json.obj [("opcodes", Json.arr [Json.obj []])])).confidence = 9/10 ∧
    (analyze_circuit (fun _ _ => (1000, 83/100)) 1 (fun _ _ => 1)
        (Json.obj [("opcodes", Json.arr [Json.obj []])])).operation_counts =
      [("Unknown", 1)] :=
  unknown_type_opcode (fun _ _ => (1000, 83/100)) 1 (fun _ _ => 1) (Json.obj []) rfl

/-! ### C8: the save/load round trip -/

theorem decodeEntry_encodeEntry (v : CostEntry) : decodeEntry (encodeEntry v) = some v := by
  obtain ⟨c, conf, n⟩ := v
  simp [decodeEntry, encodeEntry, Json.asNat, Json.asRat, Rat.den_natCast,
    Rat.num_natCast]

theorem decodeCosts_encodeCosts (costs : List (String × CostEntry)) :
    decodeCosts (encodeCosts costs) = some costs := by
  induction costs with
  | nil => simp [encodeCosts, decodeCosts]
  | cons p rest ih =>
    have ih2 : decodeCosts (List.map (fun q => (q.1, encodeEntry q.2)) rest) =
        some rest := by simpa [encodeCosts] using ih
    simp [encodeCosts, decodeCosts, decodeEntry_encodeEntry, ih2]

theorem decodeDatabase_encodeDatabase (db : CostDatabase) :
    decodeDatabase (encodeDatabase db) = some db := by
  obtain ⟨costs, lu⟩ := db
  cases lu <;>
    simp [decodeDatabase, encodeDatabase, Json.get, List.find?, decodeCosts_encodeCosts]

/-- C8: saving the database and loading it back (with the written file
intact and well-formed) yields a database with the same `costs` mapping and
`last_updated` value; no variability perturbation is applied to the
persisted values on either side of the round trip. -/
theorem save_load_round_trip (db : CostDatabase) (seeds : String → Nat) :
    (load_cost_database (save_cost_database db) seeds).costs = db.costs ∧
    (load_cost_database (save_cost_database db) seeds).last_updated =
      db.last_updated := by
  simp [load_cost_database, save_cost_database, decodeDatabase_encodeDatabase]

/-! ### C9: batch analysis -/

/-- C9: batch analysis fails exactly when the target path does not exist or
is not a directory; otherwise it returns a `(filename, result)` pair for
exactly the regular files with extension `json` and positive length, and a
per-file analysis failure is reported as an error result inside the
sequence rather than failing the batch. -/
theorem batch_analyze_spec (dir_exists dir_is_dir : Bool) (entries : List DirEntry) :
    ((∃ msg, batch_analyze dir_exists dir_is_dir entries = .error msg) ↔
      (dir_exists = false ∨ dir_is_dir = false)) ∧
    (∀ res, batch_analyze dir_exists dir_is_dir entries = .ok res →
      ∀ name r, ((name, r) ∈ res ↔
        ∃ e ∈ entries, e.file_name = name ∧ e.analysis = r ∧
          e.extension = some "json" ∧ e.is_file = true ∧ e.len > 0)) := by
  constructor
  · cases dir_exists <;> cases dir_is_dir <;> simp [batch_analyze]
  · intro res hres name r
    cases dir_exists <;> cases dir_is_dir <;> simp [batch_analyze] at hres
    subst hres
    simp only [List.mem_map, List.mem_filter]
    constructor
    · rintro ⟨e, ⟨hmem, hprops⟩, heq⟩
      simp only [Bool.and_eq_true, beq_iff_eq, decide_eq_true_eq] at hprops
      exact ⟨e, hmem, congrArg Prod.fst heq, congrArg Prod.snd heq,
        hprops.1.1, hprops.1.2, hprops.2⟩
    · rintro ⟨e, hmem, hname, hr, hext, hfile, hlen⟩
      refine ⟨e, ⟨hmem, ?_⟩, by simp [hname, hr]⟩
      simp [hext, hfile, hlen]

/-- C9 witness: a directory with a good circuit file, a failing circuit
file, and a non-JSON file; the failing file's error appears in the result
sequence. -/
theorem batch_analyze_spec_witness :
    ("bad.json", (Except.error "decode failure" : Except String CircuitAnalysis)) ∈
      (([⟨"a.json", some "json", true, 5,
            .ok (CircuitAnalysis.mk 1 [] 1 [("Unknown", 1)] [] 0 0 0 0 (9/10))⟩,
          ⟨"bad.json", some "json", true, 3, .error "decode failure"⟩,
          ⟨"c.txt", some "txt", true, 4, .error "not json"⟩] :
          List DirEntry).filter
        (fun e => e.extension == some "json" && e.is_file && decide (e.len > 0))).map
        (fun e => (e.file_name, e.analysis)) :=
  ((batch_analyze_spec true true
        [⟨"a.json", some "json", true, 5,
            .ok (CircuitAnalysis.mk 1 [] 1 [("Unknown", 1)] [] 0 0 0 0 (9/10))⟩,
          ⟨"bad.json", some "json", true, 3, .error "decode failure"⟩,
          ⟨"c.txt", some "txt", true, 4, .error "not json"⟩]).2 _ rfl
      "bad.json" (Except.error "decode failure")).mpr
    ⟨⟨"bad.json", some "json", true, 3, .error "decode failure"⟩,
      List.Mem.tail _ (List.Mem.head _), rfl, rfl, rfl, rfl, by decide⟩

/-! ### C4: find_operations_by_cost (corrected) -/

theorem insertSorted_perm (le : α → α → Bool) (x : α) (l : List α) :
    List.Perm (insertSorted le x l) (x :: l) := by
  induction l with
  | nil => simp [insertSorted]
  | cons y ys ih =>
    rw [insertSorted]
    by_cases h : le x y
    · simp [h]
    · simp only [h, if_false]
      exact (ih.cons y).trans (List.Perm.swap x y ys)

theorem sortByCmp_perm (le : α → α → Bool) (l : List α) :
    List.Perm (sortByCmp le l) l := by
  induction l with
  | nil => simp [sortByCmp]
  | cons x xs ih => exact (insertSorted_perm le x (sortByCmp le xs)).trans (ih.cons x)

theorem sorted_insertSorted (le : α → α → Bool)
    (htot : ∀ a b, le a b = true ∨ le b a = true)
    (htrans : ∀ a b c, le a b = true → le b c = true → le a c = true)
    (x : α) (l : List α) (hl : l.Sorted (fun u v => le u v = true)) :
    (insertSorted le x l).Sorted (fun u v => le u v = true) := by
  induction l with
  | nil => simp [insertSorted]
  | cons y ys ih =>
    rw [List.sorted_cons] at hl
    rw [insertSorted]
    by_cases h : le x y
    · rw [if_pos h]
      rw [List.sorted_cons]
      refine ⟨fun b hb => ?_, List.sorted_cons.mpr hl⟩
      rcases List.mem_cons.mp hb with hb | hb
      · exact hb ▸ h
      · exact htrans x y b h (hl.1 b hb)
    · rw [if_neg h]
      rw [List.sorted_cons]
      refine ⟨fun b hb => ?_, ih hl.2⟩
      rcases List.mem_cons.mp ((insertSorted_perm le x ys).mem_iff.mp hb) with hb | hb
      · rcases htot y x with hy | hy
        · exact hb.symm ▸ hy
        · exact absurd hy h
      · exact hl.1 b hb

theorem sorted_sortByCmp (le : α → α → Bool)
    (htot : ∀ a b, le a b = true ∨ le b a = true)
    (htrans : ∀ a b c, le a b = true → le b c = true → le a c = true)
    (l : List α) : (sortByCmp le l).Sorted (fun u v => le u v = true) := by
  induction l with
  | nil => simp [sortByCmp]
  | cons x xs ih => exact sorted_insertSorted le htot htrans x _ ih

/-- C4 counterexample database: three entries near cost 100. -/
def dbC4 : CostDatabase :=
  { costs := [("opa", (100, 9/10, 1)), ("opb", (102, 9/10, 1)), ("opc", (104, 9/10, 1))]
    last_updated := none }

/-- C4 counterexample: with target 100, tolerance 10% (perturbations set to
the identity by seeds 20 and 0) all three entries of `dbC4` lie within half
the tolerance; when the per-comparison clock nibble is always `< 2` the
comparator inverts every comparison, and the returned sequence is fully
descending by `|cost − target|` — it is neither the ascending order nor the
ascending order with only the first two candidates swapped, as the claim
asserts it must be. -/
theorem find_operations_order_counterexample :
    find_operations_by_cost 0 (fun _ => 20) (fun _ => 0) (fun _ _ => 0) dbC4 100 10 =
      [("opc", 104, 9/10), ("opb", 102, 9/10), ("opa", 100, 9/10)] ∧
    (find_operations_by_cost 0 (fun _ => 20) (fun _ => 0) (fun _ _ => 0)
        dbC4 100 10).map (fun e => e.1) ≠ ["opa", "opb", "opc"] ∧
    (find_operations_by_cost 0 (fun _ => 20) (fun _ => 0) (fun _ _ => 0)
        dbC4 100 10).map (fun e => e.1) ≠ ["opb", "opa", "opc"] := by
  have hid20 : ∀ c : Nat, apply_real_world_variability 20 c = c := by
    intro c
    have h1 : (98/100 + ((20 % 40 : Nat) : ℚ) * (1/1000)) = 1 := by norm_num
    rw [apply_real_world_variability, h1, mul_one, ratToUsize_natCast]
  have htol : ((100 : Nat) : ℚ) * variable_tolerance 0 10 / 100 = 10 := by
    norm_num [variable_tolerance]
  have hmatches : cost_matches (fun _ => 20) (fun _ => 0) dbC4 100
      (((100 : Nat) : ℚ) * variable_tolerance 0 10 / 100) =
      [("opa", 100, 9/10), ("opb", 102, 9/10), ("opc", 104, 9/10)] := by
    rw [htol]
    norm_num [cost_matches, dbC4, hid20, List.filterMap, abs_le]
  have hsorted : find_operations_by_cost 0 (fun _ => 20) (fun _ => 0) (fun _ _ => 0)
      dbC4 100 10 = [("opc", 104, 9/10), ("opb", 102, 9/10), ("opa", 100, 9/10)] := by
    simp only [find_operations_by_cost]
    rw [hmatches, htol]
    norm_num [sortByCmp, insertSorted, findOpsLe, abs_lt, abs_le]
  refine ⟨hsorted, ?_, ?_⟩ <;> rw [hsorted] <;> simp

set_option maxHeartbeats 1000000 in
/-- C4 (amended): `find_operations_by_cost(t, tol)` returns exactly the
database entries whose variability-perturbed cost differs from `t` by at
most the perturbed tolerance `t*(tol*k)/100` with `k` in `[1.00, 1.20)` (as
a permutation of that match list); the ordering, however, is produced by a
comparator that re-reads the wall clock at every comparison and inverts any
comparison whose two operands both lie within half the tolerance whenever
the nibble read at that comparison is `< 2` — so deviations from ascending
order are not limited to the first two candidates.  When no comparison
observes a nibble `< 2`, the result is sorted ascending by
`|perturbed cost − t|`. -/
theorem find_operations_spec (seed0 : Nat) (entrySeed varSeed : String → Nat)
    (nib : (String × Nat × ℚ) → (String × Nat × ℚ) → Nat) (db : CostDatabase)
    (target_cost : Nat) (tolerance_percent : ℚ) :
    List.Perm
      (find_operations_by_cost seed0 entrySeed varSeed nib db target_cost
        tolerance_percent)
      (cost_matches entrySeed varSeed db target_cost
        ((target_cost : ℚ) * variable_tolerance seed0 tolerance_percent / 100)) ∧
    ((∀ a b, ¬ nib a b < 2) →
      (find_operations_by_cost seed0 entrySeed varSeed nib db target_cost
          tolerance_percent).Sorted
        (fun u v => |(u.2.1 : ℚ) - (target_cost : ℚ)| ≤
          |(v.2.1 : ℚ) - (target_cost : ℚ)|)) := by
  constructor
  · exact sortByCmp_perm _ _
  · intro hnib
    simp only [find_operations_by_cost]
    have hcmp : findOpsLe nib target_cost
        ((target_cost : ℚ) * variable_tolerance seed0 tolerance_percent / 100) =
        fun u v => decide (|(u.2.1 : ℚ) - (target_cost : ℚ)| ≤
          |(v.2.1 : ℚ) - (target_cost : ℚ)|) := by
      funext u v
      simp [findOpsLe, hnib u v]
    rw [hcmp]
    have hs := sorted_sortByCmp
      (fun u v : String × Nat × ℚ => decide (|(u.2.1 : ℚ) - (target_cost : ℚ)| ≤
        |(v.2.1 : ℚ) - (target_cost : ℚ)|))
      (fun a b => by simpa using le_total _ _)
      (fun a b c hab hbc => by simp_all; exact le_trans hab hbc)
      (cost_matches entrySeed varSeed db target_cost
        ((target_cost : ℚ) * variable_tolerance seed0 tolerance_percent / 100))
    exact hs.imp (fun hr => by simpa using hr)

/-- C4 witness: the amended statement applied to `dbC4` with a
per-comparison nibble that is always 5, so the output is the ascending
sorted permutation of the match list. -/
theorem find_operations_spec_witness :
    List.Perm
      (find_operations_by_cost 0 (fun _ => 20) (fun _ => 0) (fun _ _ => 5) dbC4 100 10)
      (cost_matches (fun _ => 20) (fun _ => 0) dbC4 100
        (((100 : Nat) : ℚ) * variable_tolerance 0 10 / 100)) ∧
    (find_operations_by_cost 0 (fun _ => 20) (fun _ => 0) (fun _ _ => 5) dbC4 100
        10).Sorted
      (fun u v => |(u.2.1 : ℚ) - ((100 : Nat) : ℚ)| ≤
        |(v.2.1 : ℚ) - ((100 : Nat) : ℚ)|) := by
  have h := find_operations_spec 0 (fun _ => 20) (fun _ => 0) (fun _ _ => 5) dbC4 100 10
  exact ⟨h.1, h.2 (by intro a b; decide)⟩

end NoirProfiler
